import Mathlib

/-!
# TimeTable frontend: shallow embedding and verification

A shallow embedding of the TimeTable repository's frontend core:
the derived-state synchronization of `TimetableInputForm` (auto-sync of
teacher rosters, lab-teacher rosters and lab-room assignments against the
class subject lists), the multi-variant generation orchestrator
(`TimetableAPI.generateMultipleTimetables` plus the surrounding
`MultipleTimetableGenerator` component), the teacher-reset repair flow,
the display grouping of `TimetableDisplay.renderCell`, and the
configuration import path of `TimetableApp`.

JavaScript objects used as string-keyed maps are embedded as association
lists `List (String × α)`: JS objects preserve string-key insertion order,
`{...m}` copies bindings in order, adding a fresh key appends, and
`delete` removes a binding, all of which the list operations below mirror.
-/

namespace TimeTable

/-! ## Data model -/

/-- One section of a class: `{ name, student_count }`. -/
structure SectionDef where
  name : String
  student_count : Nat
deriving Repr, DecidableEq, Inhabited

/-- A class definition: `{ name, subjects, lab_subjects, sections }`. -/
structure ClassDef where
  name : String
  subjects : List String
  lab_subjects : List String
  sections : List SectionDef
deriving Repr, DecidableEq, Inhabited

/-- The `constraints` object of the form state (`TimetableInputForm` useState). -/
structure Constraints where
  max_lectures_per_day_teacher : Nat
  max_lectures_per_subject_per_day : Nat
  min_lectures_per_day_section : Nat
  max_lectures_per_day_section : Nat
  lab_session_duration : Nat
  distribute_across_week : Bool
deriving Repr, DecidableEq, Inhabited

/-- A string-keyed map, embedded as an association list in JS insertion order. -/
abbrev StrMap (α : Type) := List (String × α)

/-- A `{ day, slot }` teacher-unavailability exclusion. -/
structure DaySlot where
  day : String
  slot : String
deriving Repr, DecidableEq, Inhabited

/-- The full form state of `TimetableInputForm` (`inputData`). -/
structure InputData where
  classes : List ClassDef
  rooms : List String
  labs : List String
  lab_rooms : StrMap (List String)
  days : List String
  slots : List String
  teachers : StrMap (List String)
  lab_teachers : StrMap (List String)
  teacher_unavailability : StrMap (List DaySlot)
  lecture_requirements : StrMap Nat
  lab_capacity : Nat
  constraints : Constraints
deriving Repr, DecidableEq, Inhabited

/-- The initial form state (`useState` defaults, part_000 lines 5-35). -/
def defaultInputData : InputData where
  classes := [{ name := "", subjects := [], lab_subjects := [],
                sections := [{ name := "", student_count := 0 }] }]
  rooms := []
  labs := []
  lab_rooms := []
  days := ["Monday", "Tuesday", "Wednesday", "Thursday", "Friday"]
  slots := ["9:00-9:55", "9:55-10:50", "10:50-11:45", "11:45-12:40",
            "Lunch Break", "2:00-2:55", "2:55-3:50", "3:50-4:45"]
  teachers := []
  lab_teachers := []
  teacher_unavailability := []
  lecture_requirements := []
  lab_capacity := 30
  constraints :=
    { max_lectures_per_day_teacher := 5
      max_lectures_per_subject_per_day := 2
      min_lectures_per_day_section := 4
      max_lectures_per_day_section := 6
      lab_session_duration := 2
      distribute_across_week := true }

/-! ## Association-list operations (JS object semantics) -/

/-- The keys of a map, in insertion order (`Object.keys`). -/
def keys (m : StrMap α) : List String := m.map Prod.fst

/-- Key lookup (`m[k]`), returning the binding of the first matching key. -/
def lookupKey : StrMap α → String → Option α
  | [], _ => none
  | p :: rest, k => if p.1 = k then some p.2 else lookupKey rest k

/-- `{...m, [k]: v}`: replace the binding of an existing key in place,
or append a binding for a fresh key. -/
def setKey (m : StrMap α) (k : String) (v : α) : StrMap α :=
  if k ∈ keys m then m.map (fun p => if p.1 = k then (k, v) else p)
  else m ++ [(k, v)]

/-- `xs.map((x, j) => j === i ? f x : x)`. -/
def mapAt (i : Nat) (f : α → α) (xs : List α) : List α :=
  xs.mapIdx (fun j x => if j = i then f x else x)

@[simp] theorem keys_nil : keys ([] : StrMap α) = [] := rfl

@[simp] theorem keys_cons (p : String × α) (m : StrMap α) :
    keys (p :: m) = p.1 :: keys m := rfl

@[simp] theorem keys_append (m m' : StrMap α) :
    keys (m ++ m') = keys m ++ keys m' := by
  simp [keys]

@[simp] theorem lookupKey_nil (k : String) : lookupKey ([] : StrMap α) k = none := rfl

theorem lookupKey_cons (p : String × α) (m : StrMap α) (k : String) :
    lookupKey (p :: m) k = if p.1 = k then some p.2 else lookupKey m k := rfl

theorem lookupKey_isSome_of_mem_keys {m : StrMap α} {k : String} (h : k ∈ keys m) :
    (lookupKey m k).isSome := by
  induction m with
  | nil => simp [keys] at h
  | cons p rest ih =>
    rw [lookupKey_cons]
    by_cases hp : p.1 = k
    · simp [hp]
    · simp only [keys_cons] at h
      rcases List.mem_cons.mp h with h | h
      · exact absurd h.symm hp
      · simpa [hp] using ih h

theorem mem_keys_of_lookupKey_isSome {m : StrMap α} {k : String}
    (h : (lookupKey m k).isSome) : k ∈ keys m := by
  induction m with
  | nil => simp [lookupKey] at h
  | cons p rest ih =>
    rw [lookupKey_cons] at h
    by_cases hp : p.1 = k
    · simp [keys_cons, hp]
    · simp only [hp, if_false] at h
      exact List.mem_cons_of_mem _ (ih h)

theorem lookupKey_append_left {m : StrMap α} {k : String} (h : k ∈ keys m)
    (m' : StrMap α) : lookupKey (m ++ m') k = lookupKey m k := by
  induction m with
  | nil => simp [keys] at h
  | cons p rest ih =>
    by_cases hp : p.1 = k
    · simp [lookupKey_cons, hp]
    · simp only [keys_cons] at h
      rcases List.mem_cons.mp h with h | h
      · exact absurd h.symm hp
      · simpa [lookupKey_cons, hp] using ih h

theorem lookupKey_append_right {m : StrMap α} {k : String} (h : k ∉ keys m)
    (m' : StrMap α) : lookupKey (m ++ m') k = lookupKey m' k := by
  induction m with
  | nil => simp
  | cons p rest ih =>
    simp only [keys_cons, List.mem_cons, not_or] at h
    rw [List.cons_append, lookupKey_cons, if_neg (fun hp => h.1 hp.symm)]
    exact ih h.2

/-! ## Canonical subject sets (`getAllSubjects` / `getAllLabSubjects`) -/

/-- JS `String.prototype.trim`: the string with leading and trailing
whitespace removed (structurally recursive over the character list). -/
def jsTrim (s : String) : String :=
  ⟨((s.data.dropWhile Char.isWhitespace).reverse.dropWhile
      Char.isWhitespace).reverse⟩

/-- One `subjects.add(s)` step on an insertion-ordered JS `Set`. -/
def insertNew (acc : List String) (s : String) : List String :=
  if s ∈ acc then acc else acc ++ [s]

/-- The nested `forEach` accumulation into a JS `Set`, in insertion order. -/
def collectSubjects (get : ClassDef → List String) (classes : List ClassDef) :
    List String :=
  classes.foldl (fun acc c => (get c).foldl insertNew acc) []

/-- `getAllSubjects`: deduplicated theory subjects of all classes, blanks
(`subject.trim() === ''`) excluded. -/
def getAllSubjects (classes : List ClassDef) : List String :=
  (collectSubjects (·.subjects) classes).filter (fun s => jsTrim s != "")

/-- `getAllLabSubjects`: deduplicated lab subjects of all classes, blanks excluded. -/
def getAllLabSubjects (classes : List ClassDef) : List String :=
  (collectSubjects (·.lab_subjects) classes).filter (fun s => jsTrim s != "")

theorem mem_foldl_insertNew (xs : List String) (acc : List String) (s : String) :
    s ∈ xs.foldl insertNew acc ↔ s ∈ acc ∨ s ∈ xs := by
  induction xs generalizing acc with
  | nil => simp
  | cons x rest ih =>
    rw [List.foldl_cons, ih]
    unfold insertNew
    by_cases hx : x ∈ acc
    · simp only [hx, if_true, List.mem_cons]
      constructor
      · rintro (h | h) <;> tauto
      · rintro (h | h | h)
        · tauto
        · subst h; tauto
        · tauto
    · simp only [hx, if_false, List.mem_append, List.mem_singleton, List.mem_cons]
      tauto

theorem nodup_foldl_insertNew (xs : List String) (acc : List String)
    (h : acc.Nodup) : (xs.foldl insertNew acc).Nodup := by
  induction xs generalizing acc with
  | nil => exact h
  | cons x rest ih =>
    rw [List.foldl_cons]
    apply ih
    unfold insertNew
    by_cases hx : x ∈ acc
    · simpa [hx] using h
    · simp [hx, List.nodup_append, h]

theorem nodup_collectSubjects (get : ClassDef → List String)
    (classes : List ClassDef) : (collectSubjects get classes).Nodup := by
  unfold collectSubjects
  suffices h : ∀ acc : List String, acc.Nodup →
      (classes.foldl (fun acc c => (get c).foldl insertNew acc) acc).Nodup by
    exact h [] List.nodup_nil
  induction classes with
  | nil => intro acc hacc; exact hacc
  | cons c rest ih =>
    intro acc hacc
    exact ih _ (nodup_foldl_insertNew _ _ hacc)

theorem mem_collectSubjects (get : ClassDef → List String)
    (classes : List ClassDef) (s : String) :
    s ∈ collectSubjects get classes ↔ ∃ c ∈ classes, s ∈ get c := by
  unfold collectSubjects
  suffices h : ∀ acc : List String,
      (s ∈ classes.foldl (fun acc c => (get c).foldl insertNew acc) acc ↔
        s ∈ acc ∨ ∃ c ∈ classes, s ∈ get c) by
    simpa using h []
  induction classes with
  | nil => intro acc; simp
  | cons c rest ih =>
    intro acc
    rw [List.foldl_cons, ih, mem_foldl_insertNew]
    constructor
    · rintro ((h | h) | ⟨c', hc', hs⟩)
      · tauto
      · exact Or.inr ⟨c, List.mem_cons_self _ _, h⟩
      · exact Or.inr ⟨c', List.mem_cons_of_mem _ hc', hs⟩
    · rintro (h | ⟨c', hc', hs⟩)
      · tauto
      · rcases List.mem_cons.mp hc' with h | h
        · subst h; tauto
        · exact Or.inr ⟨c', h, hs⟩

theorem nodup_getAllSubjects (classes : List ClassDef) :
    (getAllSubjects classes).Nodup :=
  (nodup_collectSubjects _ classes).filter _

theorem nodup_getAllLabSubjects (classes : List ClassDef) :
    (getAllLabSubjects classes).Nodup :=
  (nodup_collectSubjects _ classes).filter _

theorem trim_ne_of_mem_getAllSubjects {classes : List ClassDef} {s : String}
    (h : s ∈ getAllSubjects classes) : jsTrim s ≠ "" := by
  unfold getAllSubjects at h
  have := List.of_mem_filter h
  simpa using this

theorem trim_ne_of_mem_getAllLabSubjects {classes : List ClassDef} {s : String}
    (h : s ∈ getAllLabSubjects classes) : jsTrim s ≠ "" := by
  unfold getAllLabSubjects at h
  have := List.of_mem_filter h
  simpa using this

/-! ## The auto-sync effect (part_000 lines 89-143)

`useEffect` on `[inputData.classes]`: first add a fresh entry for every
canonical subject whose key is missing (`if (!newTeachers[subject])`,
always-truthy array values make this a key-presence test), then delete
every key that is no longer canonical. -/

/-- The add-missing pass: for each canonical subject without a key,
append a binding to `fresh`. -/
def addMissing (fresh : α) (subjects : List String) (m : StrMap α) : StrMap α :=
  subjects.foldl (fun acc s => if s ∈ keys acc then acc else acc ++ [(s, fresh)]) m

/-- The delete pass: drop every binding whose key is no longer canonical. -/
def removeStale (subjects : List String) (m : StrMap α) : StrMap α :=
  m.filter (fun p => decide (p.1 ∈ subjects))

/-- One reconciliation of a derived map against a canonical subject list. -/
def reconcileMap (fresh : α) (subjects : List String) (m : StrMap α) : StrMap α :=
  removeStale subjects (addMissing fresh subjects m)

/-- One settled run of the auto-sync effect on the form state. -/
def syncDerivedMaps (d : InputData) : InputData :=
  let theorySubjects := getAllSubjects d.classes
  let labSubjects := getAllLabSubjects d.classes
  { d with
    teachers := reconcileMap [""] theorySubjects d.teachers
    lab_teachers := reconcileMap [""] labSubjects d.lab_teachers
    lab_rooms := reconcileMap ([] : List String) labSubjects d.lab_rooms }

theorem mem_keys_addMissing (fresh : α) (subjects : List String) (m : StrMap α)
    (k : String) :
    k ∈ keys (addMissing fresh subjects m) ↔ k ∈ keys m ∨ k ∈ subjects := by
  induction subjects generalizing m with
  | nil => simp [addMissing]
  | cons s rest ih =>
    show k ∈ keys (addMissing fresh rest
        (if s ∈ keys m then m else m ++ [(s, fresh)])) ↔ _
    by_cases hs : s ∈ keys m
    · rw [if_pos hs, ih]
      constructor
      · rintro (h | h) <;> tauto
      · rintro (h | h)
        · tauto
        · rcases List.mem_cons.mp h with h | h
          · subst h; tauto
          · tauto
    · rw [if_neg hs, ih]
      simp only [keys_append, List.mem_append, keys_cons, keys_nil,
        List.mem_singleton, List.mem_cons]
      tauto

theorem lookupKey_addMissing_of_mem (fresh : α) (subjects : List String)
    {m : StrMap α} {k : String} (h : k ∈ keys m) :
    lookupKey (addMissing fresh subjects m) k = lookupKey m k := by
  induction subjects generalizing m with
  | nil => rfl
  | cons s rest ih =>
    show lookupKey (addMissing fresh rest
        (if s ∈ keys m then m else m ++ [(s, fresh)])) k = _
    by_cases hs : s ∈ keys m
    · rw [if_pos hs]
      exact ih h
    · rw [if_neg hs, ih (by simp [h]), lookupKey_append_left h]

theorem lookupKey_addMissing_fresh (fresh : α) (subjects : List String)
    {m : StrMap α} {k : String} (hk : k ∉ keys m) (hmem : k ∈ subjects) :
    lookupKey (addMissing fresh subjects m) k = some fresh := by
  induction subjects generalizing m with
  | nil => simp at hmem
  | cons s rest ih =>
    show lookupKey (addMissing fresh rest
        (if s ∈ keys m then m else m ++ [(s, fresh)])) k = _
    by_cases hs : s ∈ keys m
    · rw [if_pos hs]
      rcases List.mem_cons.mp hmem with h | h
      · subst h; exact absurd hs hk
      · exact ih hk h
    · rw [if_neg hs]
      by_cases hks : k = s
      · subst hks
        have hmem' : k ∈ keys (m ++ [(k, fresh)]) := by simp
        rw [lookupKey_addMissing_of_mem fresh rest hmem',
          lookupKey_append_right hk, lookupKey_cons]
        simp
      · have hk' : k ∉ keys (m ++ [(s, fresh)]) := by
          simp only [keys_append, List.mem_append, keys_cons, keys_nil,
            List.mem_singleton]
          rintro (h | h)
          · exact hk h
          · exact hks h
        rcases List.mem_cons.mp hmem with h | h
        · exact absurd h hks
        · exact ih hk' h

theorem addMissing_eq_self (fresh : α) {subjects : List String} {m : StrMap α}
    (h : ∀ s ∈ subjects, s ∈ keys m) : addMissing fresh subjects m = m := by
  induction subjects with
  | nil => rfl
  | cons s rest ih =>
    show addMissing fresh rest (if s ∈ keys m then m else m ++ [(s, fresh)]) = m
    rw [if_pos (h s (List.mem_cons_self _ _))]
    exact ih (fun s' hs' => h s' (List.mem_cons_of_mem _ hs'))

theorem mem_keys_removeStale (subjects : List String) (m : StrMap α) (k : String) :
    k ∈ keys (removeStale subjects m) ↔ k ∈ keys m ∧ k ∈ subjects := by
  induction m with
  | nil => simp [removeStale]
  | cons p rest ih =>
    unfold removeStale at ih ⊢
    rw [List.filter_cons]
    by_cases hp : p.1 ∈ subjects
    · rw [if_pos (decide_eq_true hp)]
      simp only [keys_cons, List.mem_cons, ih]
      constructor
      · rintro (h | ⟨h1, h2⟩)
        · exact ⟨Or.inl h, h ▸ hp⟩
        · exact ⟨Or.inr h1, h2⟩
      · rintro ⟨h1 | h1, h2⟩
        · exact Or.inl h1
        · exact Or.inr ⟨h1, h2⟩
    · rw [if_neg (by simp [hp]), ih]
      simp only [keys_cons, List.mem_cons]
      constructor
      · rintro ⟨h1, h2⟩; exact ⟨Or.inr h1, h2⟩
      · rintro ⟨h1 | h1, h2⟩
        · subst h1; exact absurd h2 hp
        · exact ⟨h1, h2⟩

theorem lookupKey_removeStale_of_mem (subjects : List String) (m : StrMap α)
    {k : String} (h : k ∈ subjects) :
    lookupKey (removeStale subjects m) k = lookupKey m k := by
  induction m with
  | nil => rfl
  | cons p rest ih =>
    unfold removeStale at ih ⊢
    rw [List.filter_cons]
    by_cases hp : p.1 ∈ subjects
    · rw [if_pos (decide_eq_true hp), lookupKey_cons, lookupKey_cons, ih]
    · have hpk : p.1 ≠ k := fun he => hp (he ▸ h)
      rw [if_neg (by simp [hp]), ih, lookupKey_cons, if_neg hpk]

theorem removeStale_eq_self {subjects : List String} {m : StrMap α}
    (h : ∀ k ∈ keys m, k ∈ subjects) : removeStale subjects m = m := by
  unfold removeStale
  apply List.filter_eq_self.mpr
  intro p hp
  simpa using h p.1 (List.mem_map_of_mem Prod.fst hp)

theorem mem_keys_reconcileMap (fresh : α) (subjects : List String) (m : StrMap α)
    (k : String) : k ∈ keys (reconcileMap fresh subjects m) ↔ k ∈ subjects := by
  unfold reconcileMap
  rw [mem_keys_removeStale, mem_keys_addMissing]
  tauto

theorem lookupKey_reconcileMap_of_mem (fresh : α) {subjects : List String}
    {m : StrMap α} {k : String} (hs : k ∈ subjects) (hm : k ∈ keys m) :
    lookupKey (reconcileMap fresh subjects m) k = lookupKey m k := by
  unfold reconcileMap
  rw [lookupKey_removeStale_of_mem _ _ hs, lookupKey_addMissing_of_mem fresh _ hm]

theorem lookupKey_reconcileMap_fresh (fresh : α) {subjects : List String}
    {m : StrMap α} {k : String} (hs : k ∈ subjects) (hm : k ∉ keys m) :
    lookupKey (reconcileMap fresh subjects m) k = some fresh := by
  unfold reconcileMap
  rw [lookupKey_removeStale_of_mem _ _ hs, lookupKey_addMissing_fresh fresh _ hm hs]

theorem reconcileMap_idem (fresh : α) (subjects : List String) (m : StrMap α) :
    reconcileMap fresh subjects (reconcileMap fresh subjects m) =
      reconcileMap fresh subjects m := by
  have hkeys : ∀ k ∈ keys (reconcileMap fresh subjects m), k ∈ subjects :=
    fun k hk => (mem_keys_reconcileMap fresh subjects m k).mp hk
  have hall : ∀ s ∈ subjects, s ∈ keys (reconcileMap fresh subjects m) :=
    fun s hs => (mem_keys_reconcileMap fresh subjects m s).mpr hs
  show removeStale subjects (addMissing fresh subjects _) = _
  rw [addMissing_eq_self fresh hall, removeStale_eq_self hkeys]

/-- A concrete form state for witnesses: one class with a duplicated theory
subject, a blank theory subject, one lab subject; one stale teacher key and
one stale lab-room key. -/
def sampleFormData : InputData :=
  { defaultInputData with
      classes := [{ name := "CSE",
                    subjects := ["Math", "", "Math"],
                    lab_subjects := ["Phys Lab"],
                    sections := [{ name := "A", student_count := 30 }] }]
      teachers := [("Old", ["T1"])]
      lab_teachers := []
      lab_rooms := [("Stale Lab", ["L1"])] }

/-- C1: after every reconciliation settles, the key sets of the teacher
roster, lab-teacher roster and lab-room assignment are exactly the canonical
subject / lab-subject sets derived from the classes (deduplicated, blank
names excluded); every subject newly canonical gets a fresh entry (roster:
a one-element list holding the empty string; lab-room assignment: the empty
list), and every key no longer canonical is deleted (the reverse direction
of the key-set equivalences). Quantifying over an arbitrary form state `d`
covers every sequence of class/subject edits. -/
theorem sync_keys_match_canonical (d : InputData) :
    ((getAllSubjects d.classes).Nodup ∧ (getAllLabSubjects d.classes).Nodup ∧
      (∀ s ∈ getAllSubjects d.classes, jsTrim s ≠ "") ∧
      (∀ s ∈ getAllLabSubjects d.classes, jsTrim s ≠ "")) ∧
    (∀ k, k ∈ keys (syncDerivedMaps d).teachers ↔ k ∈ getAllSubjects d.classes) ∧
    (∀ k, k ∈ keys (syncDerivedMaps d).lab_teachers ↔
      k ∈ getAllLabSubjects d.classes) ∧
    (∀ k, k ∈ keys (syncDerivedMaps d).lab_rooms ↔
      k ∈ getAllLabSubjects d.classes) ∧
    (∀ s, s ∈ getAllSubjects d.classes → s ∉ keys d.teachers →
      lookupKey (syncDerivedMaps d).teachers s = some [""]) ∧
    (∀ s, s ∈ getAllLabSubjects d.classes → s ∉ keys d.lab_teachers →
      lookupKey (syncDerivedMaps d).lab_teachers s = some [""]) ∧
    (∀ s, s ∈ getAllLabSubjects d.classes → s ∉ keys d.lab_rooms →
      lookupKey (syncDerivedMaps d).lab_rooms s = some ([] : List String)) := by
  refine ⟨⟨nodup_getAllSubjects _, nodup_getAllLabSubjects _,
    fun s hs => trim_ne_of_mem_getAllSubjects hs,
    fun s hs => trim_ne_of_mem_getAllLabSubjects hs⟩, ?_, ?_, ?_, ?_, ?_, ?_⟩
  · exact fun k => mem_keys_reconcileMap [""] (getAllSubjects d.classes) d.teachers k
  · exact fun k =>
      mem_keys_reconcileMap [""] (getAllLabSubjects d.classes) d.lab_teachers k
  · exact fun k =>
      mem_keys_reconcileMap [] (getAllLabSubjects d.classes) d.lab_rooms k
  · exact fun s hs hk => lookupKey_reconcileMap_fresh [""] hs hk
  · exact fun s hs hk => lookupKey_reconcileMap_fresh [""] hs hk
  · exact fun s hs hk => lookupKey_reconcileMap_fresh [] hs hk

/-- Witness for C1 on `sampleFormData`: "Math" (deduplicated, blank dropped)
and "Phys Lab" get fresh entries; the stale keys "Old" and "Stale Lab" are
gone. -/
theorem sync_keys_match_canonical_witness :
    ("Math" ∈ keys (syncDerivedMaps sampleFormData).teachers ↔
      "Math" ∈ getAllSubjects sampleFormData.classes) ∧
    lookupKey (syncDerivedMaps sampleFormData).teachers "Math" = some [""] ∧
    lookupKey (syncDerivedMaps sampleFormData).lab_teachers "Phys Lab" =
      some [""] ∧
    lookupKey (syncDerivedMaps sampleFormData).lab_rooms "Phys Lab" =
      some ([] : List String) ∧
    ("Old" ∈ keys (syncDerivedMaps sampleFormData).teachers ↔
      "Old" ∈ getAllSubjects sampleFormData.classes) ∧
    ("Stale Lab" ∈ keys (syncDerivedMaps sampleFormData).lab_rooms ↔
      "Stale Lab" ∈ getAllLabSubjects sampleFormData.classes) :=
  ⟨(sync_keys_match_canonical sampleFormData).2.1 "Math",
   (sync_keys_match_canonical sampleFormData).2.2.2.2.1 "Math"
     (by decide) (by decide),
   (sync_keys_match_canonical sampleFormData).2.2.2.2.2.1 "Phys Lab"
     (by decide) (by decide),
   (sync_keys_match_canonical sampleFormData).2.2.2.2.2.2 "Phys Lab"
     (by decide) (by decide),
   (sync_keys_match_canonical sampleFormData).2.1 "Old",
   (sync_keys_match_canonical sampleFormData).2.2.2.1 "Stale Lab"⟩

/-- C2: the reconciliation is idempotent (running it again with an unchanged
canonical set returns a state structurally equal to its input) and
value-preserving (a key present both before and after keeps its bound list;
the pure-model rendering of "same object identity": the spread copies keep
the old array bindings untouched). -/
theorem sync_idempotent_and_value_preserving (d : InputData) :
    syncDerivedMaps (syncDerivedMaps d) = syncDerivedMaps d ∧
    (∀ k, k ∈ keys d.teachers → k ∈ keys (syncDerivedMaps d).teachers →
      lookupKey (syncDerivedMaps d).teachers k = lookupKey d.teachers k) ∧
    (∀ k, k ∈ keys d.lab_teachers → k ∈ keys (syncDerivedMaps d).lab_teachers →
      lookupKey (syncDerivedMaps d).lab_teachers k = lookupKey d.lab_teachers k) ∧
    (∀ k, k ∈ keys d.lab_rooms → k ∈ keys (syncDerivedMaps d).lab_rooms →
      lookupKey (syncDerivedMaps d).lab_rooms k = lookupKey d.lab_rooms k) := by
  refine ⟨?_, ?_, ?_, ?_⟩
  · show ({ syncDerivedMaps d with
      teachers := reconcileMap [""] (getAllSubjects d.classes)
        (reconcileMap [""] (getAllSubjects d.classes) d.teachers)
      lab_teachers := reconcileMap [""] (getAllLabSubjects d.classes)
        (reconcileMap [""] (getAllLabSubjects d.classes) d.lab_teachers)
      lab_rooms := reconcileMap [] (getAllLabSubjects d.classes)
        (reconcileMap [] (getAllLabSubjects d.classes) d.lab_rooms) } : InputData)
      = syncDerivedMaps d
    rw [reconcileMap_idem, reconcileMap_idem, reconcileMap_idem]
    rfl
  · intro k hk hk'
    exact lookupKey_reconcileMap_of_mem [""]
      ((mem_keys_reconcileMap _ _ _ k).mp hk') hk
  · intro k hk hk'
    exact lookupKey_reconcileMap_of_mem [""]
      ((mem_keys_reconcileMap _ _ _ k).mp hk') hk
  · intro k hk hk'
    exact lookupKey_reconcileMap_of_mem []
      ((mem_keys_reconcileMap _ _ _ k).mp hk') hk

/-- Witness for C2 on `sampleFormData` extended with an existing "Math"
roster entry: the entry survives reconciliation with its value untouched,
and a second run changes nothing. -/
theorem sync_idempotent_and_value_preserving_witness :
    syncDerivedMaps (syncDerivedMaps
      { sampleFormData with teachers := [("Math", ["Dr.X"])] }) =
      syncDerivedMaps { sampleFormData with teachers := [("Math", ["Dr.X"])] } ∧
    lookupKey (syncDerivedMaps
      { sampleFormData with teachers := [("Math", ["Dr.X"])] }).teachers "Math" =
      lookupKey ({ sampleFormData with
        teachers := [("Math", ["Dr.X"])] } : InputData).teachers "Math" :=
  ⟨(sync_idempotent_and_value_preserving
      { sampleFormData with teachers := [("Math", ["Dr.X"])] }).1,
   (sync_idempotent_and_value_preserving
      { sampleFormData with teachers := [("Math", ["Dr.X"])] }).2.1 "Math"
     (by decide) (by decide)⟩

/-! ## Schedule entries, solver results, variants -/

/-- One flat schedule entry returned by the solver
(`{section, day, slot, subject, teacher, room, group?, moved?, moved_from?}`;
`section` is a Lean keyword, so the field is `sectionName`). -/
structure ScheduleEntry where
  sectionName : String
  day : String
  slot : String
  subject : String
  teacher : String
  room : String
  group : Option String := none
  moved : Option Bool := none
  moved_from : Option String := none
deriving Repr, DecidableEq, Inhabited

/-- A successful solver response (`{entries/timetable, statistics,
unfulfilled, warnings}`). Numeric statistics are modelled as string-keyed
Nat bindings; no claim inspects them. -/
structure SolverResult where
  timetable : List ScheduleEntry
  statistics : StrMap Nat
  unfulfilled : StrMap (StrMap Nat)
  validation_warnings : List String
deriving Repr, DecidableEq, Inhabited

/-- One named variant assembled by `generateMultipleTimetables`. -/
structure Variant where
  id : Nat
  name : String
  data : SolverResult
  generated_at : String
deriving Repr, DecidableEq, Inhabited

/-- One recorded per-variation error (`{variation, error}`). -/
structure VariationError where
  variation : Nat
  error : String
deriving Repr, DecidableEq, Inhabited

/-- The variant built for submission index `i` (0-based): `id: i + 1`,
`name: Version i+1`, `generated_at: new Date().toISOString()` (modelled by
the opaque `clock`). -/
def mkVariant (clock : Nat → String) (i : Nat) (r : SolverResult) : Variant :=
  { id := i + 1, name := "Version " ++ toString (i + 1), data := r,
    generated_at := clock i }

/-- `TimetableAPI.generateMultipleTimetables(inputData, count)`
(part_001 lines 89-125): a sequential loop of `count` awaited solver calls;
call `i` (0-based) sends `{...inputData, _generation_seed, _variation: i+1}`
— the random seed and the network are folded into the opaque
`solver cfg (i+1)`. A success pushes a variant, a failure pushes a
`{variation, error}` record and the loop continues. -/
def generateMultipleTimetables (solver : InputData → Nat → Except String SolverResult)
    (cfg : InputData) (clock : Nat → String) (count : Nat) :
    List Variant × List VariationError :=
  (List.range count).foldl
    (fun acc i =>
      match solver cfg (i + 1) with
      | .ok r => (acc.1 ++ [mkVariant clock i r], acc.2)
      | .error msg => (acc.1, acc.2 ++ [{ variation := i + 1, error := msg }]))
    ([], [])

/-- What `MultipleTimetableGenerator.generateMultipleTimetables` does with
the batch: `throw` (caught into the error banner) exactly when zero variants
were produced, otherwise keep the variants (errors only warn). -/
inductive BatchOutcome where
  | failure (msg : String)
  | success (variants : List Variant) (errors : List VariationError)
deriving Repr, DecidableEq

/-- Whether the batch as a whole reported failure. -/
def BatchOutcome.isFailure : BatchOutcome → Bool
  | .failure _ => true
  | .success _ _ => false

/-- The component-level batch result (TimetableDisplay.jsx lines 284-300). -/
def runGenerateBatch (solver : InputData → Nat → Except String SolverResult)
    (cfg : InputData) (clock : Nat → String) (count : Nat) : BatchOutcome :=
  let (results, errors) := generateMultipleTimetables solver cfg clock count
  if results.length = 0 then .failure "No timetables could be generated"
  else .success results errors

/-- The per-index variant (`none` on solver failure). -/
def variantAt (solver : InputData → Nat → Except String SolverResult)
    (cfg : InputData) (clock : Nat → String) (i : Nat) : Option Variant :=
  match solver cfg (i + 1) with
  | .ok r => some (mkVariant clock i r)
  | .error _ => none

/-- The per-index error record (`none` on solver success). -/
def errorAt (solver : InputData → Nat → Except String SolverResult)
    (cfg : InputData) (i : Nat) : Option VariationError :=
  match solver cfg (i + 1) with
  | .ok _ => none
  | .error msg => some { variation := i + 1, error := msg }

theorem generateMultipleTimetables_foldl (solver) (cfg : InputData)
    (clock : Nat → String) (l : List Nat) (a : List Variant)
    (b : List VariationError) :
    (l.foldl (fun acc i =>
      match solver cfg (i + 1) with
      | .ok r => (acc.1 ++ [mkVariant clock i r], acc.2)
      | .error msg => (acc.1, acc.2 ++ [{ variation := i + 1, error := msg }]))
      (a, b)) =
    (a ++ l.filterMap (variantAt solver cfg clock),
     b ++ l.filterMap (errorAt solver cfg)) := by
  induction l generalizing a b with
  | nil => simp
  | cons i rest ih =>
    rw [List.foldl_cons, List.filterMap_cons, List.filterMap_cons]
    cases h : solver cfg (i + 1) with
    | ok r =>
      simp only [h, variantAt, errorAt]
      rw [ih]
      simp [h]
    | error msg =>
      simp only [h, variantAt, errorAt]
      rw [ih]
      simp [h]

/-- Closed form of the batch loop: results are the per-index successes in
submission order, errors the per-index failures in submission order. -/
theorem generateMultipleTimetables_spec (solver) (cfg : InputData)
    (clock : Nat → String) (count : Nat) :
    generateMultipleTimetables solver cfg clock count =
      ((List.range count).filterMap (variantAt solver cfg clock),
       (List.range count).filterMap (errorAt solver cfg)) := by
  unfold generateMultipleTimetables
  rw [generateMultipleTimetables_foldl]
  simp

theorem filterMap_eq_map_of_forall_some {f : α → Option β} {g : α → β}
    {l : List α} (h : ∀ a ∈ l, f a = some (g a)) :
    l.filterMap f = l.map g := by
  induction l with
  | nil => rfl
  | cons x rest ih =>
    rw [List.filterMap_cons, h x (List.mem_cons_self _ _), List.map_cons,
      ih (fun a ha => h a (List.mem_cons_of_mem _ ha))]

/-- The solver payload at a succeeding index. -/
def okValAt (solver : InputData → Nat → Except String SolverResult)
    (cfg : InputData) (i : Nat) : SolverResult :=
  match solver cfg (i + 1) with
  | .ok r => r
  | .error _ => default

theorem length_filterMap_eq_length_filter (f : α → Option β) (l : List α) :
    (l.filterMap f).length = (l.filter (fun a => (f a).isSome)).length := by
  induction l with
  | nil => rfl
  | cons x rest ih =>
    rw [List.filterMap_cons, List.filter_cons]
    cases h : f x with
    | none => simpa [h] using ih
    | some b => simpa [h] using ih

theorem length_filter_add_length_filter_not (p : α → Bool) (l : List α) :
    (l.filter p).length + (l.filter (fun a => !(p a))).length = l.length := by
  induction l with
  | nil => rfl
  | cons x rest ih =>
    rw [List.filter_cons, List.filter_cons]
    cases h : p x <;> simp [h, Nat.succ_eq_add_one, ← ih] <;> omega

/-- C3: with an always-succeeding solver, `generate(config, count)` yields
exactly `count` variants and no errors, and submission index `j` (0-based)
carries `id = j + 1` and `name = "Version j+1"` — submission order, which
the sequential awaited loop makes independent of network completion
timing. -/
theorem generate_count_named_variants (solver : InputData → Nat → Except String SolverResult)
    (cfg : InputData) (clock : Nat → String) (count : Nat) (_hcount : 1 ≤ count)
    (hok : ∀ i, (solver cfg i).isOk = true) :
    (generateMultipleTimetables solver cfg clock count).1.length = count ∧
    (generateMultipleTimetables solver cfg clock count).2 = [] ∧
    (∀ j, j < count → ∃ r,
      (generateMultipleTimetables solver cfg clock count).1.get? j =
        some { id := j + 1, name := "Version " ++ toString (j + 1), data := r,
               generated_at := clock j }) := by
  have hvar : ∀ i ∈ List.range count,
      variantAt solver cfg clock i =
        some (mkVariant clock i (okValAt solver cfg i)) := by
    intro i _
    unfold variantAt okValAt
    cases h : solver cfg (i + 1) with
    | ok r => rfl
    | error msg => have := hok (i + 1); rw [h] at this; simp [Except.isOk, Except.toBool] at this
  have herr : ∀ i ∈ List.range count, errorAt solver cfg i = none := by
    intro i _
    unfold errorAt
    cases h : solver cfg (i + 1) with
    | ok r => rfl
    | error msg => have := hok (i + 1); rw [h] at this; simp [Except.isOk, Except.toBool] at this
  have hres : (generateMultipleTimetables solver cfg clock count).1 =
      (List.range count).map (fun i => mkVariant clock i (okValAt solver cfg i)) := by
    rw [generateMultipleTimetables_spec]
    exact filterMap_eq_map_of_forall_some hvar
  have herrs : (generateMultipleTimetables solver cfg clock count).2 = [] := by
    rw [generateMultipleTimetables_spec]
    simpa using List.filterMap_eq_nil.mpr herr
  refine ⟨?_, herrs, ?_⟩
  · rw [hres]; simp
  · intro j hj
    refine ⟨okValAt solver cfg j, ?_⟩
    rw [hres, List.get?_map, List.get?_range hj]
    rfl

/-- A concrete solver payload for witnesses. -/
def sampleResult : SolverResult where
  timetable := [{ sectionName := "CSE - A", day := "Monday", slot := "9:00-9:55",
                  subject := "Math", teacher := "Dr.X", room := "R1" }]
  statistics := [("total_classes", 1)]
  unfulfilled := []
  validation_warnings := []

/-- A solver that succeeds on every request. -/
def alwaysOkSolver : InputData → Nat → Except String SolverResult :=
  fun _ _ => .ok sampleResult

/-- A solver that fails exactly on variation request 2. -/
def failAtTwoSolver : InputData → Nat → Except String SolverResult :=
  fun _ i => if i = 2 then .error "Solver exploded" else .ok sampleResult

/-- An opaque timestamp source for witnesses. -/
def constClock : Nat → String := fun _ => "2026-01-01T00:00:00.000Z"

/-- Witness for C3: three always-succeeding requests give three variants
named "Version 1".."Version 3"; submission index 1 carries id 2. -/
theorem generate_count_named_variants_witness :
    (generateMultipleTimetables alwaysOkSolver sampleFormData constClock 3).1.length = 3 ∧
    (generateMultipleTimetables alwaysOkSolver sampleFormData constClock 3).2 = [] ∧
    (∃ r, (generateMultipleTimetables alwaysOkSolver sampleFormData constClock 3).1.get? 1 =
      some { id := 2, name := "Version 2", data := r,
             generated_at := constClock 1 }) :=
  ⟨(generate_count_named_variants alwaysOkSolver sampleFormData constClock 3
      (by decide) (fun i => rfl)).1,
   (generate_count_named_variants alwaysOkSolver sampleFormData constClock 3
      (by decide) (fun i => rfl)).2.1,
   (generate_count_named_variants alwaysOkSolver sampleFormData constClock 3
      (by decide) (fun i => rfl)).2.2 1 (by decide)⟩

/-- C4: each failed request is recorded as one per-variant error while the
remaining requests still produce their variants (success count plus error
count is `count`, each matching the per-index outcome), every recorded
error corresponds to a solver failure at its variation number, and the
batch reports overall failure exactly when zero variants were produced. -/
theorem generate_isolates_failures (solver : InputData → Nat → Except String SolverResult)
    (cfg : InputData) (clock : Nat → String) (count : Nat) :
    ((generateMultipleTimetables solver cfg clock count).1.length =
      ((List.range count).filter (fun i => (solver cfg (i + 1)).isOk)).length) ∧
    ((generateMultipleTimetables solver cfg clock count).2.length =
      ((List.range count).filter (fun i => !(solver cfg (i + 1)).isOk)).length) ∧
    ((generateMultipleTimetables solver cfg clock count).1.length +
      (generateMultipleTimetables solver cfg clock count).2.length = count) ∧
    (∀ e ∈ (generateMultipleTimetables solver cfg clock count).2,
      ∃ msg, solver cfg e.variation = .error msg) ∧
    ((runGenerateBatch solver cfg clock count).isFailure = true ↔
      (generateMultipleTimetables solver cfg clock count).1 = []) := by
  have hv : ∀ i, (variantAt solver cfg clock i).isSome = (solver cfg (i + 1)).isOk := by
    intro i
    unfold variantAt
    cases h : solver cfg (i + 1) <;> simp [h, Except.isOk, Except.toBool]
  have he : ∀ i, (errorAt solver cfg i).isSome = !(solver cfg (i + 1)).isOk := by
    intro i
    unfold errorAt
    cases h : solver cfg (i + 1) <;> simp [h, Except.isOk, Except.toBool]
  have h1 : (generateMultipleTimetables solver cfg clock count).1.length =
      ((List.range count).filter (fun i => (solver cfg (i + 1)).isOk)).length := by
    rw [generateMultipleTimetables_spec]
    show ((List.range count).filterMap (variantAt solver cfg clock)).length = _
    rw [length_filterMap_eq_length_filter]
    congr 1
    exact List.filter_congr (fun i _ => hv i)
  have h2 : (generateMultipleTimetables solver cfg clock count).2.length =
      ((List.range count).filter (fun i => !(solver cfg (i + 1)).isOk)).length := by
    rw [generateMultipleTimetables_spec]
    show ((List.range count).filterMap (errorAt solver cfg)).length = _
    rw [length_filterMap_eq_length_filter]
    congr 1
    exact List.filter_congr (fun i _ => he i)
  refine ⟨h1, h2, ?_, ?_, ?_⟩
  · rw [h1, h2]
    simpa using length_filter_add_length_filter_not
      (fun i => (solver cfg (i + 1)).isOk) (List.range count)
  · intro e hmem
    rw [generateMultipleTimetables_spec] at hmem
    rcases List.mem_filterMap.mp hmem with ⟨i, _, hi⟩
    unfold errorAt at hi
    cases h : solver cfg (i + 1) with
    | ok r => rw [h] at hi; simp at hi
    | error msg =>
      rw [h] at hi
      simp only [Option.some.injEq] at hi
      exact ⟨msg, by rw [← hi]; exact h⟩
  · unfold runGenerateBatch
    rcases hP : generateMultipleTimetables solver cfg clock count with ⟨rs, es⟩
    simp only [hP]
    show (if rs.length = 0 then BatchOutcome.failure "No timetables could be generated"
        else BatchOutcome.success rs es).isFailure = true ↔ rs = []
    by_cases hz : rs.length = 0
    · rw [if_pos hz]
      simp [BatchOutcome.isFailure, List.length_eq_zero.mp hz]
    · rw [if_neg hz]
      simp only [BatchOutcome.isFailure]
      constructor
      · intro h; cases h
      · intro h; subst h; simp at hz

/-- Witness for C4: `count = 3` with only request 2 failing yields exactly
2 variants and 1 recorded error; the batch is not aborted, and the recorded
error's variation number points at the failing request. -/
theorem generate_isolates_failures_witness :
    (generateMultipleTimetables failAtTwoSolver sampleFormData constClock 3).1.length = 2 ∧
    (generateMultipleTimetables failAtTwoSolver sampleFormData constClock 3).2.length = 1 ∧
    (runGenerateBatch failAtTwoSolver sampleFormData constClock 3).isFailure = false ∧
    (∃ msg, failAtTwoSolver sampleFormData
      ({ variation := 2, error := "Solver exploded" } : VariationError).variation =
        .error msg) := by
  refine ⟨?_, ?_, ?_, ?_⟩
  · rw [(generate_isolates_failures failAtTwoSolver sampleFormData constClock 3).1]
    decide
  · rw [(generate_isolates_failures failAtTwoSolver sampleFormData constClock 3).2.1]
    decide
  · have h := (generate_isolates_failures failAtTwoSolver sampleFormData constClock 3).2.2.2.2
    have hne : (generateMultipleTimetables failAtTwoSolver sampleFormData constClock 3).1 ≠ [] := by
      decide
    cases hfail : (runGenerateBatch failAtTwoSolver sampleFormData constClock 3).isFailure with
    | false => rfl
    | true => exact absurd (h.mp hfail) hne
  · exact (generate_isolates_failures failAtTwoSolver sampleFormData constClock 3).2.2.2.1
      { variation := 2, error := "Solver exploded" } (by decide)

/-! ## Teacher-reset repair (`resetAssignment`) -/

/-- Modelled from the spec: the prior entry against which a returned entry
of the target teacher is diffed — the backend `reset_teacher` endpoint that
performs the diff is not part of src/ (the client only forwards
`{teacher, day, slot, inputData, timetable}` and consumes the annotated
reply), so the matching of "the same entry" is taken from the spec's words:
the prior entry for the same teacher, section and subject. -/
def priorEntryFor (prior : List ScheduleEntry) (teacher : String)
    (e : ScheduleEntry) : Option ScheduleEntry :=
  prior.find? (fun p => p.teacher == teacher && p.sectionName == e.sectionName
    && p.subject == e.subject)

/-- Modelled from the spec: diff one returned entry against the prior
entries for the target teacher; if its slot changed it is marked
`moved = true, moved_from = <previous slot>`, otherwise left alone. -/
def annotateEntry (prior : List ScheduleEntry) (teacher : String)
    (e : ScheduleEntry) : ScheduleEntry :=
  if e.teacher = teacher then
    match priorEntryFor prior teacher e with
    | some p =>
      if p.slot ≠ e.slot then { e with moved := some true, moved_from := some p.slot }
      else e
    | none => e
  else e

/-- Modelled from the spec: the replacement entries returned by the Solver,
diffed against the prior entries of the target teacher. -/
def annotateMoved (prior : List ScheduleEntry) (teacher : String)
    (replacement : List ScheduleEntry) : List ScheduleEntry :=
  replacement.map (annotateEntry prior teacher)

/-- C5: after a successful `resetAssignment`, replacement entries are
diffed against the prior entries for the target teacher, and every entry of
that teacher whose slot changed carries `moved = true` and `moved_from` set
to the previous slot. -/
theorem resetAssignment_marks_moved_entries (prior : List ScheduleEntry)
    (teacher : String) (replacement : List ScheduleEntry) (e p : ScheduleEntry)
    (he : e ∈ replacement) (ht : e.teacher = teacher)
    (hp : priorEntryFor prior teacher e = some p) (hs : p.slot ≠ e.slot) :
    ({ e with moved := some true, moved_from := some p.slot } : ScheduleEntry) ∈
      annotateMoved prior teacher replacement := by
  unfold annotateMoved
  have : annotateEntry prior teacher e =
      { e with moved := some true, moved_from := some p.slot } := by
    unfold annotateEntry
    rw [if_pos ht, hp]
    show (if p.slot ≠ e.slot then
        ({ e with moved := some true, moved_from := some p.slot } : ScheduleEntry)
      else e) = _
    rw [if_pos hs]
  exact this ▸ List.mem_map_of_mem (annotateEntry prior teacher) he

/-- The prior variant entries of the spec's `resetAssignment` example. -/
def priorEntries : List ScheduleEntry :=
  [{ sectionName := "CS-A", day := "Monday", slot := "9:00-9:55",
     subject := "Math", teacher := "Dr.X", room := "R1" }]

/-- The solver's replacement for the spec's `resetAssignment` example:
Dr.X's entry comes back at slot "9:55-10:50". -/
def replacementEntries : List ScheduleEntry :=
  [{ sectionName := "CS-A", day := "Monday", slot := "9:55-10:50",
     subject := "Math", teacher := "Dr.X", room := "R1" }]

/-- Witness for C5 on the spec's example: the returned Dr.X entry carries
`moved = true, moved_from = "9:00-9:55"`. -/
theorem resetAssignment_marks_moved_entries_witness :
    ({ sectionName := "CS-A", day := "Monday", slot := "9:55-10:50",
       subject := "Math", teacher := "Dr.X", room := "R1",
       moved := some true, moved_from := some "9:00-9:55" } : ScheduleEntry) ∈
      annotateMoved priorEntries "Dr.X" replacementEntries :=
  resetAssignment_marks_moved_entries priorEntries "Dr.X" replacementEntries
    { sectionName := "CS-A", day := "Monday", slot := "9:55-10:50",
      subject := "Math", teacher := "Dr.X", room := "R1" }
    { sectionName := "CS-A", day := "Monday", slot := "9:00-9:55",
      subject := "Math", teacher := "Dr.X", room := "R1" }
    (by decide) (by decide) (by decide) (by decide)

/-! ## Display grouping (`TimetableDisplay.renderCell`) -/

/-- The full section names of one class:
`section.name ? classInfo.name + " - " + section.name : classInfo.name`. -/
def fullSectionNames (c : ClassDef) : List String :=
  c.sections.map (fun s => if s.name ≠ "" then c.name ++ " - " ++ s.name else c.name)

/-- `getSectionLabSubjects` (TimetableDisplay.jsx lines 31-42): the
lab-subject list of the first class owning the section, else `[]`. -/
def getSectionLabSubjects : List ClassDef → String → List String
  | [], _ => []
  | c :: rest, sectionName =>
    if sectionName ∈ fullSectionNames c then c.lab_subjects
    else getSectionLabSubjects rest sectionName

/-- `labs` filter of `renderCell` (line 70): subject in the section's
lab-subject list — with no exclusion of "Workshop". -/
def labs (sectionLabSubjects : List String) (slotItems : List ScheduleEntry) :
    List ScheduleEntry :=
  slotItems.filter (fun item => decide (item.subject ∈ sectionLabSubjects))

/-- `nonLabs` filter of `renderCell` (line 71): subject neither in the
lab-subject list nor "Workshop". -/
def nonLabs (sectionLabSubjects : List String) (slotItems : List ScheduleEntry) :
    List ScheduleEntry :=
  slotItems.filter (fun item =>
    decide (item.subject ∉ sectionLabSubjects) && decide (item.subject ≠ "Workshop"))

/-- `workshops` filter of `renderCell` (line 72): subject equal to the
literal "Workshop". -/
def workshops (slotItems : List ScheduleEntry) : List ScheduleEntry :=
  slotItems.filter (fun item => decide (item.subject = "Workshop"))

/-- A class whose lab-subject list contains the literal "Workshop". -/
def workshopLabClass : ClassDef where
  name := "CS"
  subjects := []
  lab_subjects := ["Workshop"]
  sections := [{ name := "A", student_count := 30 }]

/-- A schedule entry with the reserved subject "Workshop". -/
def workshopEntry : ScheduleEntry where
  sectionName := "CS - A"
  day := "Monday"
  slot := "9:00-9:55"
  subject := "Workshop"
  teacher := "T"
  room := "L1"

/-- Counterexample to C6: the `labs` filter does not exclude the
"Workshop" literal, so when the owning class's lab-subject list contains
"Workshop", a workshop entry is classified both as a lab entry and as a
workshop entry — not "checked first and only as a workshop", and not a
partition. -/
theorem cell_classification_not_exclusive :
    workshopEntry ∈ labs (getSectionLabSubjects [workshopLabClass] "CS - A")
      [workshopEntry] ∧
    workshopEntry ∈ workshops [workshopEntry] := by
  constructor <;> decide

/-- C6 amended: `labs` takes every entry whose subject is in the owning
class's lab-subject list (even "Workshop"), `workshops` every entry whose
subject is the literal "Workshop", `nonLabs` the rest; whenever "Workshop"
is not in the owning class's lab-subject list this classifies every entry
of the cell into exactly one of the three categories. -/
theorem cell_classification_partition (classes : List ClassDef)
    (sectionName : String) (slotItems : List ScheduleEntry) (e : ScheduleEntry)
    (he : e ∈ slotItems)
    (hw : "Workshop" ∉ getSectionLabSubjects classes sectionName) :
    (e ∈ labs (getSectionLabSubjects classes sectionName) slotItems ∧
      e ∉ nonLabs (getSectionLabSubjects classes sectionName) slotItems ∧
      e ∉ workshops slotItems) ∨
    (e ∉ labs (getSectionLabSubjects classes sectionName) slotItems ∧
      e ∈ nonLabs (getSectionLabSubjects classes sectionName) slotItems ∧
      e ∉ workshops slotItems) ∨
    (e ∉ labs (getSectionLabSubjects classes sectionName) slotItems ∧
      e ∉ nonLabs (getSectionLabSubjects classes sectionName) slotItems ∧
      e ∈ workshops slotItems) := by
  unfold labs nonLabs workshops
  by_cases hlab : e.subject ∈ getSectionLabSubjects classes sectionName
  · have hnw : e.subject ≠ "Workshop" := fun h => hw (h ▸ hlab)
    exact Or.inl ⟨List.mem_filter.mpr ⟨he, by simpa using hlab⟩,
      fun h => by simpa [hlab] using (List.mem_filter.mp h).2,
      fun h => by simpa [hnw] using (List.mem_filter.mp h).2⟩
  · by_cases hws : e.subject = "Workshop"
    · exact Or.inr (Or.inr ⟨
        fun h => by simpa [hlab] using (List.mem_filter.mp h).2,
        fun h => by simpa [hws] using (List.mem_filter.mp h).2,
        List.mem_filter.mpr ⟨he, by simpa using hws⟩⟩)
    · exact Or.inr (Or.inl ⟨
        fun h => by simpa [hlab] using (List.mem_filter.mp h).2,
        List.mem_filter.mpr ⟨he, by simp [hlab, hws]⟩,
        fun h => by simpa [hws] using (List.mem_filter.mp h).2⟩)

/-- A class without "Workshop" among its lab subjects. -/
def plainLabClass : ClassDef where
  name := "CS"
  subjects := ["Math"]
  lab_subjects := ["Phys Lab"]
  sections := [{ name := "A", student_count := 30 }]

/-- A lab entry used by the amended-C6 witness. -/
def physLabEntry : ScheduleEntry where
  sectionName := "CS - A"
  day := "Monday"
  slot := "9:00-9:55"
  subject := "Phys Lab"
  teacher := "T"
  room := "L1"

/-- Witness for amended C6: for a class whose lab list lacks "Workshop", a
lab entry lands in exactly one category. -/
theorem cell_classification_partition_witness :
    (physLabEntry ∈ labs (getSectionLabSubjects [plainLabClass] "CS - A")
        [physLabEntry] ∧
      physLabEntry ∉ nonLabs (getSectionLabSubjects [plainLabClass] "CS - A")
        [physLabEntry] ∧
      physLabEntry ∉ workshops [physLabEntry]) ∨
    (physLabEntry ∉ labs (getSectionLabSubjects [plainLabClass] "CS - A")
        [physLabEntry] ∧
      physLabEntry ∈ nonLabs (getSectionLabSubjects [plainLabClass] "CS - A")
        [physLabEntry] ∧
      physLabEntry ∉ workshops [physLabEntry]) ∨
    (physLabEntry ∉ labs (getSectionLabSubjects [plainLabClass] "CS - A")
        [physLabEntry] ∧
      physLabEntry ∉ nonLabs (getSectionLabSubjects [plainLabClass] "CS - A")
        [physLabEntry] ∧
      physLabEntry ∈ workshops [physLabEntry]) :=
  cell_classification_partition [plainLabClass] "CS - A" [physLabEntry]
    physLabEntry (by decide) (by decide)

/-- The variant-update block of `handleResetTeacher` (TimetableDisplay.jsx
lines 325-336): copy the list, rebuild the current variant with the
returned timetable and the name suffixed " (Modified)"; every other field
is spread from the old variant. The early `if (!currentTimetableData)
return` guard is the `none` branch. -/
def applyResetResult (timetables : List Variant) (current : Nat)
    (newEntries : List ScheduleEntry) : List Variant :=
  match timetables[current]? with
  | none => timetables
  | some cur =>
    timetables.set current
      { cur with
          data := { cur.data with timetable := newEntries }
          name := cur.name ++ " (Modified)" }

/-- C9: a successful reset on the currently selected variant replaces only
that variant's entries and appends " (Modified)" to its name; its
`statistics`, `unfulfilled`, `id` and `generated_at` stay stale, and every
other variant in the list is untouched. -/
theorem reset_updates_only_selected_variant (timetables : List Variant)
    (current : Nat) (newEntries : List ScheduleEntry) (cur : Variant)
    (hcur : timetables[current]? = some cur) :
    (applyResetResult timetables current newEntries)[current]? =
      some { id := cur.id
             name := cur.name ++ " (Modified)"
             data := { timetable := newEntries
                       statistics := cur.data.statistics
                       unfulfilled := cur.data.unfulfilled
                       validation_warnings := cur.data.validation_warnings }
             generated_at := cur.generated_at } ∧
    (∀ j, j ≠ current →
      (applyResetResult timetables current newEntries)[j]? = timetables[j]?) := by
  have hlt : current < timetables.length := by
    by_contra hge
    rw [List.getElem?_eq_none (Nat.le_of_not_lt hge)] at hcur
    cases hcur
  constructor
  · unfold applyResetResult
    rw [hcur]
    exact List.getElem?_set_eq_of_lt _ hlt
  · intro j hj
    unfold applyResetResult
    rw [hcur]
    exact List.getElem?_set_ne (fun h => hj h.symm)

/-- Two concrete variants for the C9 witness. -/
def sampleVariants : List Variant :=
  [{ id := 1, name := "Version 1", data := sampleResult,
     generated_at := "2026-01-01T00:00:00.000Z" },
   { id := 2, name := "Version 2", data := sampleResult,
     generated_at := "2026-01-01T00:00:01.000Z" }]

/-- Witness for C9: resetting variant 0 of `sampleVariants` rewrites only
its timetable and name; variant 1 is untouched. -/
theorem reset_updates_only_selected_variant_witness :
    (applyResetResult sampleVariants 0 replacementEntries)[0]? =
      some { id := 1
             name := "Version 1 (Modified)"
             data := { timetable := replacementEntries
                       statistics := sampleResult.statistics
                       unfulfilled := sampleResult.unfulfilled
                       validation_warnings := sampleResult.validation_warnings }
             generated_at := "2026-01-01T00:00:00.000Z" } ∧
    (applyResetResult sampleVariants 0 replacementEntries)[1]? =
      sampleVariants[1]? :=
  ⟨(reset_updates_only_selected_variant sampleVariants 0 replacementEntries
      { id := 1, name := "Version 1", data := sampleResult,
        generated_at := "2026-01-01T00:00:00.000Z" } (by decide)).1,
   (reset_updates_only_selected_variant sampleVariants 0 replacementEntries
      { id := 1, name := "Version 1", data := sampleResult,
        generated_at := "2026-01-01T00:00:00.000Z" } (by decide)).2 1 (by decide)⟩

/-! ## The in-flight guard of `MultipleTimetableGenerator` -/

/-- The component state of `MultipleTimetableGenerator`
(`timetables, currentTimetable, loading, error, generationCount`), extended
with the number of outstanding generate batches and outstanding reset
requests so that in-flight behaviour is explicit. -/
structure GenCompState where
  timetables : List Variant
  currentTimetable : Nat
  loading : Bool
  error : Option String
  generationCount : Nat
  genPending : Nat
  resetPending : Nat
deriving Repr, DecidableEq

/-- The component's initial state (`useState` defaults). -/
def initialGenCompState : GenCompState where
  timetables := []
  currentTimetable := 0
  loading := false
  error := none
  generationCount := 3
  genPending := 0
  resetPending := 0

/-- The externally observable events of the component: the generate button,
resolution of an outstanding generate batch (carrying the awaited
`{results, errors}` pair), a click on a teacher name, and resolution of an
outstanding reset request. -/
inductive GenEvent where
  | clickGenerate
  | generateResolved (results : List Variant) (errors : List VariationError)
  | clickTeacherReset (teacher : String) (day : String) (slot : String)
  | resetResolved (outcome : Except String (List ScheduleEntry))

/-- One event step of the component (TimetableDisplay.jsx lines 264-342 and
the button at lines 408-424). The returned flag records whether the step
issued a new generate batch to the solver. The generate button is rendered
with `disabled={loading || !inputData}`, so a click while loading is a
no-op; the started handler clears the error and the variant list, sets
`loading`, and issues the batch. Batch resolution applies the component's
try/catch/finally; reset resolution applies `handleResetTeacher`'s. -/
def stepGen (hasInput : Bool) (e : GenEvent) (s : GenCompState) :
    GenCompState × Bool :=
  match e with
  | .clickGenerate =>
    if s.loading || !hasInput then (s, false)
    else
      ({ s with loading := true, error := none, timetables := [],
                genPending := s.genPending + 1 }, true)
  | .generateResolved results _errors =>
    if s.genPending = 0 then (s, false)
    else if results.length = 0 then
      ({ s with genPending := s.genPending - 1, loading := false,
                error := some "No timetables could be generated" }, false)
    else
      ({ s with genPending := s.genPending - 1, loading := false,
                timetables := results, currentTimetable := 0,
                error := s.error }, false)
  | .clickTeacherReset _ _ _ =>
    if s.timetables.length = 0 then (s, false)
    else match s.timetables[s.currentTimetable]? with
      | none => (s, false)
      | some _ =>
        ({ s with loading := true, resetPending := s.resetPending + 1 }, false)
  | .resetResolved outcome =>
    if s.resetPending = 0 then (s, false)
    else match outcome with
      | .ok entries =>
        ({ s with resetPending := s.resetPending - 1, loading := false,
                  timetables :=
                    applyResetResult s.timetables s.currentTimetable entries },
         false)
      | .error msg =>
        ({ s with resetPending := s.resetPending - 1, loading := false,
                  error := some ("Failed to reset teacher: " ++ msg) }, false)

/-- The component state after a sequence of events from the initial state. -/
def runGen (hasInput : Bool) (events : List GenEvent) : GenCompState :=
  events.foldl (fun s e => (stepGen hasInput e s).1) initialGenCompState

/-- Whether an event belongs to the teacher-reset flow. -/
def GenEvent.isResetFlow : GenEvent → Bool
  | .clickTeacherReset _ _ _ => true
  | .resetResolved _ => true
  | _ => false

/-- The in-flight invariant for reset-free executions: at most one generate
batch is outstanding, and an outstanding batch keeps the loading flag set. -/
def GenInvNoReset (s : GenCompState) : Prop :=
  s.genPending ≤ 1 ∧ (1 ≤ s.genPending → s.loading = true)

theorem genInvNoReset_initial : GenInvNoReset initialGenCompState := by
  refine ⟨by decide, ?_⟩
  intro h
  cases h

theorem genInvNoReset_step (hasInput : Bool) (e : GenEvent) (s : GenCompState)
    (hres : e.isResetFlow = false) (hinv : GenInvNoReset s) :
    GenInvNoReset (stepGen hasInput e s).1 := by
  obtain ⟨h1, h2⟩ := hinv
  cases e with
  | clickGenerate =>
    simp only [stepGen]
    by_cases hl : (s.loading || !hasInput) = true
    · rw [if_pos hl]; exact ⟨h1, h2⟩
    · rw [if_neg hl]
      have hload : s.loading = false := by
        cases hld : s.loading
        · rfl
        · rw [hld] at hl; simp at hl
      have hgen : s.genPending = 0 := by
        by_contra hg
        have := h2 (Nat.one_le_iff_ne_zero.mpr hg)
        rw [hload] at this; cases this
      exact ⟨by simp [hgen], fun _ => rfl⟩
  | generateResolved results errors =>
    simp only [stepGen]
    by_cases hg : s.genPending = 0
    · rw [if_pos hg]; exact ⟨h1, h2⟩
    · rw [if_neg hg]
      have hgp : s.genPending = 1 :=
        Nat.le_antisymm h1 (Nat.one_le_iff_ne_zero.mpr hg)
      by_cases hz : results.length = 0
      · rw [if_pos hz]
        exact ⟨by simp [hgp], fun h => by simp [hgp] at h⟩
      · rw [if_neg hz]
        exact ⟨by simp [hgp], fun h => by simp [hgp] at h⟩
  | clickTeacherReset teacher day slot => cases hres
  | resetResolved outcome => cases hres

theorem genInvNoReset_runGen (hasInput : Bool) (events : List GenEvent)
    (hres : ∀ e ∈ events, e.isResetFlow = false) :
    GenInvNoReset (runGen hasInput events) := by
  unfold runGen
  suffices hsuf : ∀ s, GenInvNoReset s →
      GenInvNoReset (events.foldl (fun s e => (stepGen hasInput e s).1) s) by
    exact hsuf initialGenCompState genInvNoReset_initial
  induction events with
  | nil => intro s hs; exact hs
  | cons e rest ih =>
    intro s hs
    exact ih (fun e' he' => hres e' (List.mem_cons_of_mem _ he')) _
      (genInvNoReset_step hasInput e s (hres e (List.mem_cons_self _ _)) hs)

/-- An event sequence that defeats the in-flight guard: a successful batch,
two overlapping teacher resets, the first reset resolving (its `finally`
clears `loading`) so a new batch is accepted, then the second reset
resolving (clearing `loading` again while that batch is outstanding) so yet
another batch is accepted. -/
def guardBreakingTrace : List GenEvent :=
  [.clickGenerate,
   .generateResolved sampleVariants [],
   .clickTeacherReset "Dr.X" "Monday" "9:00-9:55",
   .clickTeacherReset "Dr.X" "Monday" "9:55-10:50",
   .resetResolved (.ok []),
   .clickGenerate,
   .resetResolved (.ok []),
   .clickGenerate]

/-- Counterexample to C7: after `guardBreakingTrace` two generate batches
are outstanding at once — the `loading` flag that backs the guard is shared
with the reset flow, and a reset resolving while a batch is in flight
re-enables the generate button. -/
theorem single_inflight_generate_guard_counterexample :
    (runGen true guardBreakingTrace).genPending = 2 := by decide

/-- C7 amended: a `clickGenerate` arriving while `loading` is set is
rejected — the state is unchanged and no batch is issued (neither executed
concurrently, nor queued, nor merged); and for every event sequence free of
teacher-reset events, at most one generation batch is ever outstanding and
an outstanding batch keeps `loading` set. -/
theorem single_inflight_generate_guard (hasInput : Bool) (events : List GenEvent) :
    ((runGen hasInput events).loading = true →
      stepGen hasInput .clickGenerate (runGen hasInput events) =
        (runGen hasInput events, false)) ∧
    ((∀ e ∈ events, e.isResetFlow = false) →
      (runGen hasInput events).genPending ≤ 1 ∧
      ((runGen hasInput events).genPending = 1 →
        (runGen hasInput events).loading = true)) := by
  constructor
  · intro hl
    simp only [stepGen]
    rw [if_pos (by rw [hl]; rfl)]
  · intro hres
    obtain ⟨h1, h2⟩ := genInvNoReset_runGen hasInput events hres
    exact ⟨h1, fun hg => h2 (by omega)⟩

/-- Witness for amended C7: after a click (with input data present) a batch
is in flight and `loading` is set, a second click in that state is a no-op
that issues nothing, and the one-click reset-free trace keeps at most one
batch outstanding. -/
theorem single_inflight_generate_guard_witness :
    stepGen true .clickGenerate (runGen true [GenEvent.clickGenerate]) =
      (runGen true [GenEvent.clickGenerate], false) ∧
    (runGen true [GenEvent.clickGenerate]).genPending ≤ 1 ∧
    ((runGen true [GenEvent.clickGenerate]).genPending = 1 →
      (runGen true [GenEvent.clickGenerate]).loading = true) :=
  ⟨(single_inflight_generate_guard true [GenEvent.clickGenerate]).1 (by decide),
   (single_inflight_generate_guard true [GenEvent.clickGenerate]).2 (by decide)⟩

/-! ## Configuration import (`TimetableApp`) -/

/-- A configuration document as parsed from imported JSON: every known
top-level field may be missing, and unknown fields are carried verbatim. -/
structure ConfigDoc where
  classes : Option (List ClassDef) := none
  rooms : Option (List String) := none
  labs : Option (List String) := none
  lab_rooms : Option (StrMap (List String)) := none
  days : Option (List String) := none
  slots : Option (List String) := none
  teachers : Option (StrMap (List String)) := none
  lab_teachers : Option (StrMap (List String)) := none
  teacher_unavailability : Option (StrMap (List DaySlot)) := none
  lecture_requirements : Option (StrMap Nat) := none
  lab_capacity : Option Nat := none
  constraints : Option Constraints := none
  extraFields : List (String × String) := []
deriving Repr, DecidableEq, Inhabited

/-- The current step of `TimetableApp` (`'input'` or `'generate'`). -/
inductive AppStep where
  | input
  | generate
deriving Repr, DecidableEq

/-- The state of `TimetableApp`:
`inputData, currentStep, isValidInput`. -/
structure AppState where
  inputData : Option ConfigDoc
  currentStep : AppStep
  isValidInput : Bool
deriving Repr, DecidableEq

/-- `TimetableApp`'s initial state (`useState` defaults). -/
def initialAppState : AppState where
  inputData := none
  currentStep := .input
  isValidInput := false

/-- The validation of `handleInputDataChange` (TimetableApp.jsx lines
15-24): has classes, every class has a truthy name, a section and a subject
or lab subject, and days and slots are non-empty; optional chaining off a
missing field is falsy. -/
def validateInputDoc (doc : ConfigDoc) : Bool :=
  let hasClasses := match doc.classes with
    | some cs => cs.length > 0
    | none => false
  let hasValidClasses := match doc.classes with
    | some cs => cs.all (fun cls => cls.name != "" && cls.sections.length > 0 &&
        (cls.subjects.length > 0 || cls.lab_subjects.length > 0))
    | none => false
  let hasDaysAndSlots :=
    (match doc.days with | some ds => ds.length > 0 | none => false) &&
    (match doc.slots with | some ss => ss.length > 0 | none => false)
  hasClasses && hasValidClasses && hasDaysAndSlots

/-- `handleInputDataChange(newInputData)` (TimetableApp.jsx lines 12-25). -/
def handleInputDataChange (doc : ConfigDoc) (s : AppState) : AppState :=
  { s with inputData := some doc, isValidInput := validateInputDoc doc }

/-- The import `onChange` handler's success path (TimetableApp.jsx lines
181-184) on a document that parsed as JSON: `setInputData(importedData)`,
`handleInputDataChange(importedData)`, `setCurrentStep('input')`. -/
def importConfigParsed (doc : ConfigDoc) (s : AppState) : AppState :=
  let s1 := { s with inputData := some doc }
  let s2 := handleInputDataChange doc s1
  { s2 with currentStep := .input }

/-- The all-fields-missing configuration document (the parse of `{}`). -/
def emptyConfigDoc : ConfigDoc := {}

/-- Counterexample to C8: importing the JSON document `{}` leaves the
resulting configuration exactly `{}` — its `days` (and every other field)
remains absent instead of falling back to the default five working days of
the initial configuration. -/
theorem import_keeps_missing_fields_absent :
    (importConfigParsed emptyConfigDoc initialAppState).inputData =
      some emptyConfigDoc ∧
    emptyConfigDoc.days = none ∧
    defaultInputData.days = ["Monday", "Tuesday", "Wednesday", "Thursday",
      "Friday"] ∧
    emptyConfigDoc.lab_capacity = none ∧
    defaultInputData.lab_capacity = 30 ∧
    emptyConfigDoc.constraints = none ∧
    defaultInputData.constraints.max_lectures_per_day_teacher = 5 := by
  refine ⟨rfl, rfl, rfl, rfl, rfl, rfl, rfl⟩

/-- C8 amended: for every imported document that parses as JSON, import
replaces the configuration verbatim — the resulting model is exactly the
imported document, unknown fields kept and missing fields left absent with
no fallback to the defaults (which are only the form component's initial
state) — and the app switches to the input step with the validation flag
recomputed on the document. -/
theorem import_replaces_config_verbatim (doc : ConfigDoc) (s : AppState) :
    (importConfigParsed doc s).inputData = some doc ∧
    (importConfigParsed doc s).currentStep = .input ∧
    (importConfigParsed doc s).isValidInput = validateInputDoc doc :=
  ⟨rfl, rfl, rfl⟩

/-! ## The configuration form (`TimetableInputForm`, part_000)

Every handler calls only `setInputData`; the component declares no
parameters (`const TimetableInputForm = () => {...}`), so the props the
parent passes (`onInputChange`, `initialData`) are never read. -/

/-- `{...m}` with key `k` removed (`delete m[k]`). -/
def deleteKey (m : StrMap α) (k : String) : StrMap α :=
  m.filter (fun p => decide (p.1 ≠ k))

/-- A freshly added blank class. -/
def blankClass : ClassDef where
  name := ""
  subjects := []
  lab_subjects := []
  sections := [{ name := "", student_count := 0 }]

/-- `addClass`. -/
def addClass (d : InputData) : InputData :=
  { d with classes := d.classes ++ [blankClass] }

/-- `removeClass(index)`: filter on index. -/
def removeClass (i : Nat) (d : InputData) : InputData :=
  { d with classes := d.classes.eraseIdx i }

/-- `updateClass(index, 'name', value)` (the only field used in the JSX). -/
def updateClass (i : Nat) (v : String) (d : InputData) : InputData :=
  { d with classes := mapAt i (fun c => { c with name := v }) d.classes }

/-- `addSubjectToClass(classIndex, isLab)`. -/
def addSubjectToClass (i : Nat) (isLab : Bool) (d : InputData) : InputData :=
  { d with classes := (mapAt i (fun c =>
      if isLab then { c with lab_subjects := c.lab_subjects ++ [""] }
      else { c with subjects := c.subjects ++ [""] }) d.classes) }

/-- `updateClassSubject(classIndex, subjectIndex, value, isLab)`. -/
def updateClassSubject (i j : Nat) (v : String) (isLab : Bool)
    (d : InputData) : InputData :=
  { d with classes := (mapAt i (fun c =>
      if isLab then { c with lab_subjects := mapAt j (fun _ => v) c.lab_subjects }
      else { c with subjects := mapAt j (fun _ => v) c.subjects }) d.classes) }

/-- `removeSubjectFromClass(classIndex, subjectIndex, isLab)`. -/
def removeSubjectFromClass (i j : Nat) (isLab : Bool) (d : InputData) : InputData :=
  { d with classes := (mapAt i (fun c =>
      if isLab then { c with lab_subjects := c.lab_subjects.eraseIdx j }
      else { c with subjects := c.subjects.eraseIdx j }) d.classes) }

/-- `addSectionToClass(classIndex)`. -/
def addSectionToClass (i : Nat) (d : InputData) : InputData :=
  { d with classes := (mapAt i (fun c =>
      { c with sections := c.sections ++ [{ name := "", student_count := 0 }] })
      d.classes) }

/-- `updateSection(classIndex, sectionIndex, 'name', value)`. -/
def updateSectionName (i j : Nat) (v : String) (d : InputData) : InputData :=
  { d with classes := (mapAt i (fun c =>
      { c with sections := mapAt j (fun s => { s with name := v }) c.sections })
      d.classes) }

/-- `updateSection(classIndex, sectionIndex, 'student_count', value)`. -/
def updateSectionCount (i j : Nat) (v : Nat) (d : InputData) : InputData :=
  { d with classes := (mapAt i (fun c =>
      { c with sections :=
          (mapAt j (fun s => { s with student_count := v }) c.sections) })
      d.classes) }

/-- `removeSectionFromClass(classIndex, sectionIndex)`. -/
def removeSectionFromClass (i j : Nat) (d : InputData) : InputData :=
  { d with classes := (mapAt i (fun c =>
      { c with sections := c.sections.eraseIdx j }) d.classes) }

/-- `addRoom(isLab)`. -/
def addRoom (isLab : Bool) (d : InputData) : InputData :=
  if isLab then { d with labs := d.labs ++ [""] }
  else { d with rooms := d.rooms ++ [""] }

/-- `updateRoom(index, value, isLab)`. -/
def updateRoom (i : Nat) (v : String) (isLab : Bool) (d : InputData) : InputData :=
  if isLab then { d with labs := mapAt i (fun _ => v) d.labs }
  else { d with rooms := mapAt i (fun _ => v) d.rooms }

/-- `removeRoom(index, isLab)`. -/
def removeRoom (i : Nat) (isLab : Bool) (d : InputData) : InputData :=
  if isLab then { d with labs := d.labs.eraseIdx i }
  else { d with rooms := d.rooms.eraseIdx i }

/-- The lab-capacity input (part_000 line 638); the event carries the value
after `parseInt(...) || 30`. -/
def setLabCapacity (v : Nat) (d : InputData) : InputData :=
  { d with lab_capacity := v }

/-- `toggleLabRoomAssignment(labSubject, labRoom)`. -/
def toggleLabRoomAssignment (labSubject labRoom : String) (d : InputData) :
    InputData :=
  let currentRooms := (lookupKey d.lab_rooms labSubject).getD []
  let newRooms :=
    if labRoom ∈ currentRooms then currentRooms.filter (fun r => decide (r ≠ labRoom))
    else currentRooms ++ [labRoom]
  { d with lab_rooms := setKey d.lab_rooms labSubject newRooms }

/-- `selectAllLabRooms(labSubject)`. -/
def selectAllLabRooms (labSubject : String) (d : InputData) : InputData :=
  { d with lab_rooms :=
      (setKey d.lab_rooms labSubject (d.labs.filter (fun room => jsTrim room != ""))) }

/-- `clearAllLabRooms(labSubject)`. -/
def clearAllLabRooms (labSubject : String) (d : InputData) : InputData :=
  { d with lab_rooms := setKey d.lab_rooms labSubject [] }

/-- The working-days input (part_000 lines 732-735). -/
def updateDay (i : Nat) (v : String) (d : InputData) : InputData :=
  { d with days := mapAt i (fun _ => v) d.days }

/-- `addTimeSlot`. -/
def addTimeSlot (d : InputData) : InputData :=
  { d with slots := d.slots ++ [""] }

/-- `updateTimeSlot(index, value)`. -/
def updateTimeSlot (i : Nat) (v : String) (d : InputData) : InputData :=
  { d with slots := mapAt i (fun _ => v) d.slots }

/-- `removeTimeSlot(index)`. -/
def removeTimeSlot (i : Nat) (d : InputData) : InputData :=
  { d with slots := d.slots.eraseIdx i }

/-- `addTeacher(subject, isLab)`:
`prev[field][subject] ? [...prev[field][subject], ''] : ['']`. -/
def addTeacher (subject : String) (isLab : Bool) (d : InputData) : InputData :=
  if isLab then
    { d with lab_teachers := (setKey d.lab_teachers subject
        ((lookupKey d.lab_teachers subject).getD [] ++ [""])) }
  else
    { d with teachers := (setKey d.teachers subject
        ((lookupKey d.teachers subject).getD [] ++ [""])) }

/-- `updateTeacher(subject, teacherIndex, value, isLab)`; the UI only fires
it for rostered subjects, so a missing key leaves the map unchanged. -/
def updateTeacher (subject : String) (i : Nat) (v : String) (isLab : Bool)
    (d : InputData) : InputData :=
  if isLab then
    match lookupKey d.lab_teachers subject with
    | some ts =>
      { d with lab_teachers := setKey d.lab_teachers subject (mapAt i (fun _ => v) ts) }
    | none => d
  else
    match lookupKey d.teachers subject with
    | some ts =>
      { d with teachers := setKey d.teachers subject (mapAt i (fun _ => v) ts) }
    | none => d

/-- `removeTeacher(subject, teacherIndex, isLab)`; as for `updateTeacher`,
a missing key leaves the map unchanged. -/
def removeTeacher (subject : String) (i : Nat) (isLab : Bool) (d : InputData) :
    InputData :=
  if isLab then
    match lookupKey d.lab_teachers subject with
    | some ts =>
      { d with lab_teachers := setKey d.lab_teachers subject (ts.eraseIdx i) }
    | none => d
  else
    match lookupKey d.teachers subject with
    | some ts => { d with teachers := setKey d.teachers subject (ts.eraseIdx i) }
    | none => d

/-- `addTeacherUnavailability(teacherName)`. -/
def addTeacherUnavailability (t : String) (d : InputData) : InputData :=
  { d with teacher_unavailability := (setKey d.teacher_unavailability t
      ((lookupKey d.teacher_unavailability t).getD [] ++ [{ day := "", slot := "" }])) }

/-- `updateTeacherUnavailability(teacherName, index, 'day', value)`. -/
def updateTeacherUnavailabilityDay (t : String) (i : Nat) (v : String)
    (d : InputData) : InputData :=
  match lookupKey d.teacher_unavailability t with
  | some us =>
    { d with teacher_unavailability := (setKey d.teacher_unavailability t
        (mapAt i (fun u => { u with day := v }) us)) }
  | none => d

/-- `updateTeacherUnavailability(teacherName, index, 'slot', value)`. -/
def updateTeacherUnavailabilitySlot (t : String) (i : Nat) (v : String)
    (d : InputData) : InputData :=
  match lookupKey d.teacher_unavailability t with
  | some us =>
    { d with teacher_unavailability := (setKey d.teacher_unavailability t
        (mapAt i (fun u => { u with slot := v }) us)) }
  | none => d

/-- `removeTeacherUnavailability(teacherName, index)`. -/
def removeTeacherUnavailability (t : String) (i : Nat) (d : InputData) : InputData :=
  match lookupKey d.teacher_unavailability t with
  | some us =>
    { d with teacher_unavailability := (setKey d.teacher_unavailability t
        (us.eraseIdx i)) }
  | none => d

/-- `removeTeacherFromUnavailability(teacherName)`. -/
def removeTeacherFromUnavailability (t : String) (d : InputData) : InputData :=
  { d with teacher_unavailability := deleteKey d.teacher_unavailability t }

/-- The lecture-requirements input (part_000 lines 1026-1033). -/
def setLectureRequirement (subject : String) (v : Nat) (d : InputData) : InputData :=
  { d with lecture_requirements := setKey d.lecture_requirements subject v }

/-- `updateNestedState('constraints.<field>', value)` for each of the six
constraint inputs (part_000 lines 958-1008). -/
def updateConstraintField (f : Constraints → Constraints) (d : InputData) :
    InputData :=
  { d with constraints := f d.constraints }

/-- The form's edit events: one constructor per handler wired in the JSX,
plus the auto-sync effect triggered by class edits. -/
inductive FormEvent where
  | addClass
  | removeClass (i : Nat)
  | updateClassName (i : Nat) (v : String)
  | addSubjectToClass (i : Nat) (isLab : Bool)
  | updateClassSubject (i j : Nat) (v : String) (isLab : Bool)
  | removeSubjectFromClass (i j : Nat) (isLab : Bool)
  | addSectionToClass (i : Nat)
  | updateSectionName (i j : Nat) (v : String)
  | updateSectionCount (i j : Nat) (v : Nat)
  | removeSectionFromClass (i j : Nat)
  | addRoom (isLab : Bool)
  | updateRoom (i : Nat) (v : String) (isLab : Bool)
  | removeRoom (i : Nat) (isLab : Bool)
  | setLabCapacity (v : Nat)
  | toggleLabRoomAssignment (labSubject labRoom : String)
  | selectAllLabRooms (labSubject : String)
  | clearAllLabRooms (labSubject : String)
  | updateDay (i : Nat) (v : String)
  | addTimeSlot
  | updateTimeSlot (i : Nat) (v : String)
  | removeTimeSlot (i : Nat)
  | addTeacher (subject : String) (isLab : Bool)
  | updateTeacher (subject : String) (i : Nat) (v : String) (isLab : Bool)
  | removeTeacher (subject : String) (i : Nat) (isLab : Bool)
  | addTeacherUnavailability (t : String)
  | updateTeacherUnavailabilityDay (t : String) (i : Nat) (v : String)
  | updateTeacherUnavailabilitySlot (t : String) (i : Nat) (v : String)
  | removeTeacherUnavailability (t : String) (i : Nat)
  | removeTeacherFromUnavailability (t : String)
  | setLectureRequirement (subject : String) (v : Nat)
  | setMaxLecturesPerDayTeacher (v : Nat)
  | setMaxLecturesPerSubjectPerDay (v : Nat)
  | setMinLecturesPerDaySection (v : Nat)
  | setMaxLecturesPerDaySection (v : Nat)
  | setLabSessionDuration (v : Nat)
  | setDistributeAcrossWeek (v : Bool)
  | classesChangedEffect

/-- A call from the form into its parent. The form's handlers never
construct one: every handler calls only the local `setInputData`. -/
inductive ParentCall where
  | onInputChange (payload : InputData)

/-- One form event applied to the form state, paired with the parent calls
it makes — an empty list in every branch, because every handler in
part_000 touches only the component's own `useState` state. -/
def formHandle : FormEvent → InputData → InputData × List ParentCall
  | .addClass, d => (addClass d, [])
  | .removeClass i, d => (removeClass i d, [])
  | .updateClassName i v, d => (updateClass i v d, [])
  | .addSubjectToClass i isLab, d => (addSubjectToClass i isLab d, [])
  | .updateClassSubject i j v isLab, d => (updateClassSubject i j v isLab d, [])
  | .removeSubjectFromClass i j isLab, d => (removeSubjectFromClass i j isLab d, [])
  | .addSectionToClass i, d => (addSectionToClass i d, [])
  | .updateSectionName i j v, d => (updateSectionName i j v d, [])
  | .updateSectionCount i j v, d => (updateSectionCount i j v d, [])
  | .removeSectionFromClass i j, d => (removeSectionFromClass i j d, [])
  | .addRoom isLab, d => (addRoom isLab d, [])
  | .updateRoom i v isLab, d => (updateRoom i v isLab d, [])
  | .removeRoom i isLab, d => (removeRoom i isLab d, [])
  | .setLabCapacity v, d => (setLabCapacity v d, [])
  | .toggleLabRoomAssignment ls lr, d => (toggleLabRoomAssignment ls lr d, [])
  | .selectAllLabRooms ls, d => (selectAllLabRooms ls d, [])
  | .clearAllLabRooms ls, d => (clearAllLabRooms ls d, [])
  | .updateDay i v, d => (updateDay i v d, [])
  | .addTimeSlot, d => (addTimeSlot d, [])
  | .updateTimeSlot i v, d => (updateTimeSlot i v d, [])
  | .removeTimeSlot i, d => (removeTimeSlot i d, [])
  | .addTeacher s isLab, d => (addTeacher s isLab d, [])
  | .updateTeacher s i v isLab, d => (updateTeacher s i v isLab d, [])
  | .removeTeacher s i isLab, d => (removeTeacher s i isLab d, [])
  | .addTeacherUnavailability t, d => (addTeacherUnavailability t d, [])
  | .updateTeacherUnavailabilityDay t i v, d =>
      (updateTeacherUnavailabilityDay t i v d, [])
  | .updateTeacherUnavailabilitySlot t i v, d =>
      (updateTeacherUnavailabilitySlot t i v d, [])
  | .removeTeacherUnavailability t i, d => (removeTeacherUnavailability t i d, [])
  | .removeTeacherFromUnavailability t, d =>
      (removeTeacherFromUnavailability t d, [])
  | .setLectureRequirement s v, d => (setLectureRequirement s v d, [])
  | .setMaxLecturesPerDayTeacher v, d =>
      (updateConstraintField (fun c => { c with max_lectures_per_day_teacher := v }) d, [])
  | .setMaxLecturesPerSubjectPerDay v, d =>
      (updateConstraintField (fun c => { c with max_lectures_per_subject_per_day := v }) d, [])
  | .setMinLecturesPerDaySection v, d =>
      (updateConstraintField (fun c => { c with min_lectures_per_day_section := v }) d, [])
  | .setMaxLecturesPerDaySection v, d =>
      (updateConstraintField (fun c => { c with max_lectures_per_day_section := v }) d, [])
  | .setLabSessionDuration v, d =>
      (updateConstraintField (fun c => { c with lab_session_duration := v }) d, [])
  | .setDistributeAcrossWeek v, d =>
      (updateConstraintField (fun c => { c with distribute_across_week := v }) d, [])
  | .classesChangedEffect, d => (syncDerivedMaps d, [])

/-- The props `TimetableApp` passes to the form (lines 87-90):
`onInputChange={handleInputDataChange}` and `initialData={inputData}`. -/
structure FormProps where
  onInputChange : ConfigDoc → AppState → AppState
  initialData : Option ConfigDoc

/-- The behaviour of a mounted form component: its initial state and its
event handler. -/
structure FormComponent where
  initState : InputData
  handle : FormEvent → InputData → InputData × List ParentCall

/-- `TimetableInputForm` (part_000 line 4): declared with an empty
parameter list, so the props record is never read — the initial state is
the hard-coded default and the handlers are the prop-free `formHandle`. -/
def TimetableInputForm (_props : FormProps) : FormComponent where
  initState := defaultInputData
  handle := formHandle

/-- A mounted component run over a sequence of events: the final form state
together with every parent call made along the way. -/
def runForm (c : FormComponent) (events : List FormEvent) :
    InputData × List ParentCall :=
  events.foldl
    (fun acc e =>
      let r := c.handle e acc.1
      (r.1, acc.2 ++ r.2))
    (c.initState, [])

theorem formHandle_silent (e : FormEvent) (d : InputData) :
    (formHandle e d).2 = [] := by
  cases e <;> rfl

/-- C10: the form component is a constant function of its props — any two
props values give the same mounted behaviour, its initial state is the
hard-coded default (so a stored or imported configuration is never
reflected in the form), and no sequence of form edits ever makes a parent
call, so the parent's `onInputChange` is never invoked and the
configuration the parent holds is never changed by form edits. -/
theorem form_constant_in_props_and_silent :
    (∀ p q : FormProps, TimetableInputForm p = TimetableInputForm q) ∧
    (∀ p : FormProps, (TimetableInputForm p).initState = defaultInputData) ∧
    (∀ (p : FormProps) (events : List FormEvent),
      (runForm (TimetableInputForm p) events).2 = []) := by
  refine ⟨fun p q => rfl, fun p => rfl, fun p events => ?_⟩
  show (runForm { initState := defaultInputData, handle := formHandle } events).2 = []
  unfold runForm
  suffices hsuf : ∀ (d : InputData) (calls : List ParentCall), calls = [] →
      (events.foldl
        (fun acc e =>
          let r := formHandle e acc.1
          (r.1, acc.2 ++ r.2)) (d, calls)).2 = [] by
    exact hsuf defaultInputData [] rfl
  induction events with
  | nil => intro d calls hc; simpa using hc
  | cons e rest ih =>
    intro d calls hc
    rw [List.foldl_cons]
    exact ih _ _ (by rw [hc, formHandle_silent]; rfl)

end TimeTable
